import Mathlib

/-!
Verification of the per-partition processing core of go-kafka-event-source.

The development shallowly embeds two Go source files of package `streams`:
`source.go` (the `Source` wrapper of `EventSourceConfig` and its configuration
normalization helpers) and the partition-worker file (the `partitionWorker`
state machine: scheduling of record batches and interjections, producer
assignment, and event dispatch).

Conventions of the embedding:
- Go `int`/`int64` values (offsets, replication factors) are modelled as `Int`;
  no arithmetic here approaches the 64-bit range, so overflow is not modelled.
- Nilable Go interface/function values are modelled as `Option` of an abstract
  Lean type.
- Channels owned by a worker are modelled as FIFO queues (`List`) inside the
  worker state; sending appends, receiving pops the head.  Blocking sends are
  not modelled as such; instead token counters record semaphore balance.
- The two concurrent loops of a worker (ingress loop `pushRecords` and dispatch
  loop `work`) are modelled as explicit state-transformer steps; an interleaved
  execution is a sequence of such steps.
-/

namespace GKES

/-- Modelled from the spec: a Kafka cluster handle (`Cluster` is an external
collaborator; only nil-ness and identity matter here). -/
structure Cluster where
  id : Nat
deriving DecidableEq, Repr

/-- Modelled from the spec: a deserialization-error handler value.
`defaultHandler` stands for the package value `DefaultDeserializationErrorHandler`;
`custom` stands for any user-supplied handler. -/
inductive DeserializationErrorHandler where
  | defaultHandler
  | custom (id : Nat)
deriving DecidableEq, Repr

/-- Modelled from the spec: a transaction-error handler value.
`defaultHandler` stands for the package value `DefaultTxnErrorHandler`. -/
inductive TxnErrorHandler where
  | defaultHandler
  | custom (id : Nat)
deriving DecidableEq, Repr

/-- The package-level default deserialization error handler. -/
def DefaultDeserializationErrorHandler : DeserializationErrorHandler :=
  DeserializationErrorHandler.defaultHandler

/-- The package-level default transaction error handler. -/
def DefaultTxnErrorHandler : TxnErrorHandler :=
  TxnErrorHandler.defaultHandler

/-- Embeds `EventSourceConfig` (source.go).  Only the fields the claims touch
are carried; handler and cluster fields are `Option` because the Go values are
nilable interfaces/functions. -/
structure EventSourceConfig where
  GroupId : String
  Topic : String
  StateStoreTopic : String
  NumPartitions : Int
  ReplicationFactor : Int
  MinInSync : Int
  SourceCluster : Option Cluster
  StateCluster : Option Cluster
  CommitOffsets : Bool
  DeserializationErrorHandler : Option DeserializationErrorHandler
  TxnErrorHandler : Option TxnErrorHandler
deriving DecidableEq, Repr

/-- Embeds `Source` (source.go): a readonly wrapper of `EventSourceConfig`.
The `state` word is the `Healthy`/`Unhealthy` flag; the failure channel is not
modelled. -/
structure Source where
  state : Nat
  config : EventSourceConfig
deriving DecidableEq, Repr

/-- Embeds `newSource(config)`: state starts `Healthy` (0). -/
def newSource (config : EventSourceConfig) : Source :=
  { state := 0, config := config }

/-- Embeds `(*Source).shouldMarkCommit`: the body is literally `return false`
(the `return s.config.CommitOffsets` line is commented out in the source). -/
def Source.shouldMarkCommit (_ : Source) : Bool :=
  false

/-- Embeds `(*Source).eosErrorHandler`: default when `config.TxnErrorHandler`
is nil, otherwise the configured handler. -/
def Source.eosErrorHandler (s : Source) : Option TxnErrorHandler :=
  if s.config.TxnErrorHandler = none then
    some DefaultTxnErrorHandler
  else
    s.config.TxnErrorHandler

/-- Embeds `(*Source).deserializationErrorHandler`: the guard tests
`config.TxnErrorHandler == nil` (not the deserialization handler field), and
the else branch returns `config.DeserializationErrorHandler` unchanged. -/
def Source.deserializationErrorHandler (s : Source) :
    Option DeserializationErrorHandler :=
  if s.config.TxnErrorHandler = none then
    some DefaultDeserializationErrorHandler
  else
    s.config.DeserializationErrorHandler

/-- Embeds `(*Source).CommitLogTopicNameForGroupId`:
`fmt.Sprintf("gkes_commit_log_%s", s.config.GroupId)`. -/
def Source.CommitLogTopicNameForGroupId (s : Source) : String :=
  "gkes_commit_log_" ++ s.config.GroupId

/-- Embeds `(*Source).StateStoreTopicName`: the configured name when its
length is positive, otherwise `gkes_change_log_{topic}_{groupId}`. -/
def Source.StateStoreTopicName (s : Source) : String :=
  if s.config.StateStoreTopic.length > 0 then
    s.config.StateStoreTopic
  else
    "gkes_change_log_" ++ s.config.Topic ++ "_" ++ s.config.GroupId

/-- Embeds `(*Source).stateCluster`: `SourceCluster` when `StateCluster` is
nil, otherwise `StateCluster`. -/
def Source.stateCluster (s : Source) : Option Cluster :=
  if s.config.StateCluster = none then
    s.config.SourceCluster
  else
    s.config.StateCluster

/-- Embeds `replicationFactorConfig(source)` (source.go). -/
def replicationFactorConfig (source : Source) : Int :=
  if source.config.ReplicationFactor ≤ 0 then
    1
  else
    source.config.ReplicationFactor

/-- Embeds `minInSyncConfig(source)` (source.go). -/
def minInSyncConfig (source : Source) : Int :=
  let factor := replicationFactorConfig source
  if factor ≤ 1 then
    1
  else if source.config.MinInSync ≥ factor then
    source.config.ReplicationFactor - 1
  else
    source.config.MinInSync

/-- Embeds `kgo.Record` as far as the worker reads it: only `Offset` (int64)
is inspected. -/
structure Record where
  Offset : Int
deriving DecidableEq, Repr

/-- Embeds the return type `ExecutionState` of user handlers. -/
inductive ExecutionState where
  | Complete
  | Incomplete
  | Fatal
  | unknownType
deriving DecidableEq, Repr

/-- Modelled from the spec: a producer slot written to an event context's
`producerChan` by the producer pool; `none` at the call sites stands for a nil
delivery (pool shutdown / revocation). -/
structure Producer where
  id : Nat
deriving DecidableEq, Repr

/-- Embeds `interjection` as far as the scheduling code reads it: only the
optional one-shot `callback` matters to the claims; callbacks are named by a
`Nat` identifier so that invocations can be logged. -/
structure Interjection where
  callback : Option Nat
deriving DecidableEq, Repr

/-- An event context as registered with the producer pool: either a record
context (carrying the record's offset) or an interjection context. -/
inductive EventCtx where
  | record (offset : Int)
  | interjection (callback : Option Nat)
deriving DecidableEq, Repr

/-- Embeds the state of a `partitionWorker` that the claims touch.  Channels
are FIFO queues; `tokensHeld` is the number of `maxPending` semaphore tokens
currently acquired (sends into `maxPending` minus receives); `poolAdmitted` is
the ordered log of contexts passed to `eosProducer.addEventContext`;
`completedOffsets` logs record contexts on which `ec.complete()` was called;
`callbacksInvoked` logs invoked one-shot interjection callbacks;
`revocationWaiter` is the `sync.WaitGroup` counter; `revoked` is the halted
state of the worker's forked `RunStatus` (so `isRevoked()` = `revoked`). -/
structure PartitionWorker where
  partitionInput : List (List (Option Record))
  eventInput : List Int
  interjectionInput : List Interjection
  interjectionEventInput : List EventCtx
  poolAdmitted : List EventCtx
  completedOffsets : List Int
  callbacksInvoked : List Nat
  tokensHeld : Int
  revocationWaiter : Int
  highestOffset : Int
  revoked : Bool
deriving DecidableEq, Repr

/-- Embeds the state set up by `newPartitionWorker`: empty channels,
`highestOffset` initialized to `-1`, running (not revoked). -/
def newPartitionWorker : PartitionWorker :=
  { partitionInput := []
    eventInput := []
    interjectionInput := []
    interjectionEventInput := []
    poolAdmitted := []
    completedOffsets := []
    callbacksInvoked := []
    tokensHeld := 0
    revocationWaiter := 0
    highestOffset := -1
    revoked := false }

/-- Embeds `(*partitionWorker).isRevoked`: `!pw.runStatus.Running()`. -/
def PartitionWorker.isRevoked (pw : PartitionWorker) : Bool :=
  pw.revoked

/-- Embeds `(*partitionWorker).revoke`: `pw.runStatus.Halt()`. -/
def PartitionWorker.revoke (pw : PartitionWorker) : PartitionWorker :=
  { pw with revoked := true }

/-- Embeds `(*partitionWorker).add(records)`: a no-op when revoked, otherwise
the batch is sent on `partitionInput`. -/
def PartitionWorker.add (pw : PartitionWorker) (records : List (Option Record)) :
    PartitionWorker :=
  if pw.isRevoked then
    pw
  else
    { pw with partitionInput := pw.partitionInput ++ [records] }

/-- Embeds `(*partitionWorker).scheduleInterjection(inter)`: when revoked,
only the one-shot callback (if any) is invoked; otherwise the
`revocationWaiter` is incremented, an interjection context is built, one
`maxPending` token is acquired, the context is registered with the producer
pool and sent on `interjectionEventInput`. -/
def PartitionWorker.scheduleInterjection (pw : PartitionWorker)
    (inter : Interjection) : PartitionWorker :=
  if pw.isRevoked then
    match inter.callback with
    | some cb => { pw with callbacksInvoked := pw.callbacksInvoked ++ [cb] }
    | none => pw
  else
    let ec := EventCtx.interjection inter.callback
    { pw with
        revocationWaiter := pw.revocationWaiter + 1
        tokensHeld := pw.tokensHeld + 1
        poolAdmitted := pw.poolAdmitted ++ [ec]
        interjectionEventInput := pw.interjectionEventInput ++ [ec] }

/-- Embeds `(*partitionWorker).interleaveInterjection`: a non-blocking receive
from `interjectionInput`; on success the interjection is scheduled. -/
def PartitionWorker.interleaveInterjection (pw : PartitionWorker) :
    PartitionWorker :=
  match pw.interjectionInput with
  | ij :: rest => PartitionWorker.scheduleInterjection
      { pw with interjectionInput := rest } ij
  | [] => pw

/-- Embeds one iteration of the `for _, record := range records` loop body of
`scheduleTxnAndExecution`, before the interjection interleave: a non-nil
record whose offset is at least the worker's current view of `highestOffset`
is admitted (event context built, one `maxPending` token acquired, context
registered with the producer pool and sent on `eventInput`); otherwise the
`revocationWaiter` is decremented. -/
def PartitionWorker.processRecord (pw : PartitionWorker) (r : Option Record) :
    PartitionWorker :=
  match r with
  | some rec =>
    if rec.Offset ≥ pw.highestOffset then
      let ec := EventCtx.record rec.Offset
      { pw with
          tokensHeld := pw.tokensHeld + 1
          poolAdmitted := pw.poolAdmitted ++ [ec]
          eventInput := pw.eventInput ++ [rec.Offset] }
    else
      { pw with revocationWaiter := pw.revocationWaiter - 1 }
  | none => { pw with revocationWaiter := pw.revocationWaiter - 1 }

/-- One full iteration of the loop of `scheduleTxnAndExecution`: the record
step followed by `interleaveInterjection`. -/
def PartitionWorker.scheduleRecord (pw : PartitionWorker) (r : Option Record) :
    PartitionWorker :=
  (pw.processRecord r).interleaveInterjection

/-- Embeds `(*partitionWorker).scheduleTxnAndExecution(records)` as executed
by the ingress loop alone: early return when revoked, one optimistic
`revocationWaiter.Add(len(records))`, then the per-record loop.  `highestOffset`
is read from the worker state but never written here — writes happen only in
the concurrent dispatch loop (`forwardToEventSource`), so this function models
the interleaving in which the dispatch loop does not run during the batch. -/
def PartitionWorker.scheduleTxnAndExecution (pw : PartitionWorker)
    (records : List (Option Record)) : PartitionWorker :=
  if pw.isRevoked then
    pw
  else
    records.foldl PartitionWorker.scheduleRecord
      { pw with revocationWaiter := pw.revocationWaiter + records.length }

/-- Embeds `(*partitionWorker).forwardToEventSource(ec)` for a record context
with offset `offset`.  `producer` is the value `assignProducer` delivered on
`ec.producerChan` (`none` = nil); `state` is the result of the user's event
handler (`pw.eventSource.handleEvent(ec, record)`).  A nil producer releases
the `maxPending` token and returns; otherwise `highestOffset := offset + 1`,
and when the handler returns `Complete` the context is completed and the token
released. -/
def PartitionWorker.forwardToEventSource (pw : PartitionWorker) (offset : Int)
    (producer : Option Producer) (state : ExecutionState) : PartitionWorker :=
  match producer with
  | none => { pw with tokensHeld := pw.tokensHeld - 1 }
  | some _ =>
    let pw := { pw with highestOffset := offset + 1 }
    if state = ExecutionState.Complete then
      { pw with
          completedOffsets := pw.completedOffsets ++ [offset]
          tokensHeld := pw.tokensHeld - 1 }
    else
      pw

/-- Embeds `(*partitionWorker).handleEvent(ec)`: forwards to
`forwardToEventSource` and returns `true`. -/
def PartitionWorker.handleEvent (pw : PartitionWorker) (offset : Int)
    (producer : Option Producer) (state : ExecutionState) :
    PartitionWorker × Bool :=
  (pw.forwardToEventSource offset producer state, true)

/-- One dispatch-loop step: receive the next record context from `eventInput`
and run `handleEvent` on it, with `producer` delivered on its `producerChan`
and `state` returned by the user handler. -/
def PartitionWorker.dispatchOne (pw : PartitionWorker)
    (producer : Option Producer) (state : ExecutionState) : PartitionWorker :=
  match pw.eventInput with
  | [] => pw
  | offset :: rest =>
    (PartitionWorker.handleEvent { pw with eventInput := rest }
      offset producer state).1

/-- The dispatch loop draining every context currently queued on `eventInput`,
each with a (non-nil) producer slot assigned and the user handler returning
`Complete`. -/
def PartitionWorker.dispatchAllComplete (pw : PartitionWorker) :
    PartitionWorker :=
  pw.eventInput.foldl
    (fun acc offset =>
      acc.forwardToEventSource offset (some { id := 0 }) ExecutionState.Complete)
    { pw with eventInput := [] }

/-- One record of a batch under the lockstep interleaving: the ingress loop
schedules the record, then the dispatch loop runs to quiescence (every
admitted context is dispatched, producer assigned, handler `Complete`) before
the ingress loop inspects the next record. -/
def PartitionWorker.lockstepStep (pw : PartitionWorker) (r : Option Record) :
    PartitionWorker :=
  (pw.scheduleRecord r).dispatchAllComplete

/-- `scheduleTxnAndExecution` under the lockstep interleaving: the dispatch
loop processes each admitted context (writing `highestOffset`) before the
ingress loop inspects the next record of the batch. -/
def PartitionWorker.scheduleTxnAndExecutionLockstep (pw : PartitionWorker)
    (records : List (Option Record)) : PartitionWorker :=
  if pw.isRevoked then
    pw
  else
    records.foldl PartitionWorker.lockstepStep
      { pw with revocationWaiter := pw.revocationWaiter + records.length }

/-- The batch of the duplicate-suppression scenario: offsets [5,6,7,5,6,7]. -/
def dupBatch : List (Option Record) :=
  [5, 6, 7, 5, 6, 7].map (fun o => some { Offset := o })

/-! ## Theorems about the `Source` configuration helpers -/

/-- A baseline configuration used to instantiate theorems at concrete inputs. -/
def cfgBase : EventSourceConfig :=
  { GroupId := "grp"
    Topic := "topic"
    StateStoreTopic := ""
    NumPartitions := 1
    ReplicationFactor := 1
    MinInSync := 1
    SourceCluster := none
    StateCluster := none
    CommitOffsets := false
    DeserializationErrorHandler := none
    TxnErrorHandler := none }

/-- C5: `deserializationErrorHandler` returns the default exactly when
`config.TxnErrorHandler` is nil; when `config.TxnErrorHandler` is non-nil it
returns `config.DeserializationErrorHandler` unchanged, even when that field
is itself nil. -/
theorem c5_deserialization_handler_selected_by_txn_handler (s : Source) :
    (s.config.TxnErrorHandler = none →
      s.deserializationErrorHandler = some DefaultDeserializationErrorHandler) ∧
    (s.config.TxnErrorHandler ≠ none →
      s.deserializationErrorHandler = s.config.DeserializationErrorHandler) ∧
    (s.config.TxnErrorHandler ≠ none → s.config.DeserializationErrorHandler = none →
      s.deserializationErrorHandler = none) := by
  unfold Source.deserializationErrorHandler
  refine ⟨fun h => by simp [h], fun h => by simp [h], fun h h2 => by simp [h, h2]⟩

/-- C5 witness: with no transaction handler configured the default
deserialization handler is selected; with a custom transaction handler
configured and a nil deserialization handler, nil is returned. -/
theorem c5_witness :
    (newSource cfgBase).deserializationErrorHandler =
      some DefaultDeserializationErrorHandler ∧
    (newSource { cfgBase with
        TxnErrorHandler := some (TxnErrorHandler.custom 1) }).deserializationErrorHandler
      = none := by
  refine ⟨(c5_deserialization_handler_selected_by_txn_handler (newSource cfgBase)).1 rfl,
    (c5_deserialization_handler_selected_by_txn_handler
      (newSource { cfgBase with
        TxnErrorHandler := some (TxnErrorHandler.custom 1) })).2.2 (by decide) rfl⟩

/-- C6: `shouldMarkCommit` returns `false` for every `Source`, regardless of
`config.CommitOffsets` — in particular also when `CommitOffsets` is `true`. -/
theorem c6_should_mark_commit_always_false (s : Source) :
    s.shouldMarkCommit = false ∧
    (newSource { s.config with CommitOffsets := true }).shouldMarkCommit = false :=
  ⟨rfl, rfl⟩

/-- C7: `replicationFactorConfig` returns 1 when `config.ReplicationFactor`
is non-positive and `config.ReplicationFactor` otherwise; `minInSyncConfig`
returns 1 when the normalized replication factor is at most 1, returns
`config.ReplicationFactor - 1` when `config.MinInSync` is at least the
normalized factor, and returns `config.MinInSync` otherwise. -/
theorem c7_replication_and_min_insync_normalization (s : Source) :
    (s.config.ReplicationFactor ≤ 0 → replicationFactorConfig s = 1) ∧
    (0 < s.config.ReplicationFactor →
      replicationFactorConfig s = s.config.ReplicationFactor) ∧
    (replicationFactorConfig s ≤ 1 → minInSyncConfig s = 1) ∧
    (1 < replicationFactorConfig s →
      s.config.MinInSync ≥ replicationFactorConfig s →
      minInSyncConfig s = s.config.ReplicationFactor - 1) ∧
    (1 < replicationFactorConfig s →
      s.config.MinInSync < replicationFactorConfig s →
      minInSyncConfig s = s.config.MinInSync) := by
  have hmin : minInSyncConfig s =
      if replicationFactorConfig s ≤ 1 then (1 : Int)
      else if s.config.MinInSync ≥ replicationFactorConfig s then
        s.config.ReplicationFactor - 1
      else s.config.MinInSync := rfl
  rw [hmin]
  unfold replicationFactorConfig
  split_ifs <;> refine ⟨?_, ?_, ?_, ?_, ?_⟩ <;> intros <;> omega

/-- C7 witness: concrete instances exercising each normalization branch
(replication factor 0 → 1; factor 3 kept; min-in-sync clamped to factor − 1;
min-in-sync 2 < factor 3 kept). -/
theorem c7_witness :
    replicationFactorConfig (newSource { cfgBase with ReplicationFactor := 0 }) = 1 ∧
    replicationFactorConfig (newSource { cfgBase with ReplicationFactor := 3 }) = 3 ∧
    minInSyncConfig (newSource { cfgBase with ReplicationFactor := 0 }) = 1 ∧
    minInSyncConfig
      (newSource { cfgBase with ReplicationFactor := 3, MinInSync := 5 }) = 2 ∧
    minInSyncConfig
      (newSource { cfgBase with ReplicationFactor := 3, MinInSync := 2 }) = 2 := by
  refine ⟨(c7_replication_and_min_insync_normalization _).1 (by decide),
    ?_, ?_, ?_, ?_⟩
  · have h := (c7_replication_and_min_insync_normalization
      (newSource { cfgBase with ReplicationFactor := 3 })).2.1 (by decide)
    simpa using h
  · exact (c7_replication_and_min_insync_normalization
      (newSource { cfgBase with ReplicationFactor := 0 })).2.2.1 (by decide)
  · have h := (c7_replication_and_min_insync_normalization
      (newSource { cfgBase with ReplicationFactor := 3, MinInSync := 5 })).2.2.2.1
      (by decide) (by decide)
    simpa using h
  · have h := (c7_replication_and_min_insync_normalization
      (newSource { cfgBase with ReplicationFactor := 3, MinInSync := 2 })).2.2.2.2
      (by decide) (by decide)
    simpa using h

/-- A non-empty string has positive length. -/
lemma string_length_pos_of_ne_empty (t : String) (h : t ≠ "") : 0 < t.length := by
  rcases t with ⟨l⟩
  cases l with
  | nil => exact absurd rfl h
  | cons c cs => simp [String.length]

/-- C8: the commit-log topic name is `gkes_commit_log_` followed by the group
id; the state-store topic name is the configured one when non-empty, and
otherwise `gkes_change_log_` ++ topic ++ `_` ++ group id. -/
theorem c8_topic_names (s : Source) :
    s.CommitLogTopicNameForGroupId = "gkes_commit_log_" ++ s.config.GroupId ∧
    (s.config.StateStoreTopic ≠ "" →
      s.StateStoreTopicName = s.config.StateStoreTopic) ∧
    (s.config.StateStoreTopic = "" →
      s.StateStoreTopicName =
        "gkes_change_log_" ++ s.config.Topic ++ "_" ++ s.config.GroupId) := by
  refine ⟨rfl, fun h => ?_, fun h => ?_⟩
  · unfold Source.StateStoreTopicName
    have hlen : s.config.StateStoreTopic.length > 0 :=
      string_length_pos_of_ne_empty _ h
    simp [hlen]
  · unfold Source.StateStoreTopicName
    simp [h]

/-- C8 witness: concrete topic names for a configured and an unconfigured
state-store topic. -/
theorem c8_witness :
    (newSource cfgBase).CommitLogTopicNameForGroupId = "gkes_commit_log_grp" ∧
    (newSource { cfgBase with StateStoreTopic := "custom" }).StateStoreTopicName
      = "custom" ∧
    (newSource cfgBase).StateStoreTopicName = "gkes_change_log_topic_grp" := by
  refine ⟨?_, ?_, ?_⟩
  · have h := (c8_topic_names (newSource cfgBase)).1
    simpa using h
  · exact (c8_topic_names
      (newSource { cfgBase with StateStoreTopic := "custom" })).2.1 (by decide)
  · have h := (c8_topic_names (newSource cfgBase)).2.2 rfl
    simpa using h

/-- C9: when the replication factor exceeds 1 and `config.MinInSync` is
strictly below it, `minInSyncConfig` returns `config.MinInSync` unchanged —
even when that value is zero or negative; no lower clamp to 1 applies. -/
theorem c9_min_insync_no_lower_clamp (s : Source)
    (h1 : 1 < s.config.ReplicationFactor)
    (h2 : s.config.MinInSync < s.config.ReplicationFactor) :
    minInSyncConfig s = s.config.MinInSync := by
  have hmin : minInSyncConfig s =
      if replicationFactorConfig s ≤ 1 then (1 : Int)
      else if s.config.MinInSync ≥ replicationFactorConfig s then
        s.config.ReplicationFactor - 1
      else s.config.MinInSync := rfl
  rw [hmin]
  unfold replicationFactorConfig
  split_ifs <;> omega

/-- C9 witness: replication factor 3 with min-in-sync 0 yields 0. -/
theorem c9_witness :
    minInSyncConfig
      (newSource { cfgBase with ReplicationFactor := 3, MinInSync := 0 }) = 0 := by
  have h := c9_min_insync_no_lower_clamp
    (newSource { cfgBase with ReplicationFactor := 3, MinInSync := 0 })
    (by decide) (by decide)
  simpa using h

/-- C10: `stateCluster` returns `config.SourceCluster` when
`config.StateCluster` is nil, and `config.StateCluster` otherwise. -/
theorem c10_state_cluster_fallback (s : Source) :
    (s.config.StateCluster = none → s.stateCluster = s.config.SourceCluster) ∧
    (∀ c : Cluster, s.config.StateCluster = some c → s.stateCluster = some c) := by
  unfold Source.stateCluster
  refine ⟨fun h => by simp [h], fun c h => by simp [h]⟩

/-- The configuration used to instantiate the C10 theorem: both clusters set. -/
def cfgBothClusters : EventSourceConfig :=
  { cfgBase with SourceCluster := some { id := 1 }, StateCluster := some { id := 2 } }

/-- C10 witness: the fallback to the source cluster and the pass-through of a
configured state cluster, at concrete clusters. -/
theorem c10_witness :
    (newSource { cfgBase with SourceCluster := some { id := 1 } }).stateCluster
      = some { id := 1 } ∧
    (newSource cfgBothClusters).stateCluster = some { id := 2 } := by
  refine ⟨?_, ?_⟩
  · have h := (c10_state_cluster_fallback
      (newSource { cfgBase with SourceCluster := some { id := 1 } })).1 rfl
    simpa using h
  · exact (c10_state_cluster_fallback (newSource cfgBothClusters)).2 { id := 2 } rfl

/-! ## Theorems about the partition worker -/

/-- `scheduleInterjection` never touches `eventInput` or `highestOffset`. -/
lemma scheduleInterjection_preserves (pw : PartitionWorker) (ij : Interjection) :
    (pw.scheduleInterjection ij).eventInput = pw.eventInput ∧
    (pw.scheduleInterjection ij).highestOffset = pw.highestOffset := by
  unfold PartitionWorker.scheduleInterjection
  by_cases h : pw.isRevoked
  · cases hc : ij.callback <;> simp [h, hc]
  · simp [h]

/-- `interleaveInterjection` never touches `eventInput` or `highestOffset`. -/
lemma interleaveInterjection_preserves (pw : PartitionWorker) :
    pw.interleaveInterjection.eventInput = pw.eventInput ∧
    pw.interleaveInterjection.highestOffset = pw.highestOffset := by
  unfold PartitionWorker.interleaveInterjection
  cases hij : pw.interjectionInput with
  | nil => exact ⟨rfl, rfl⟩
  | cons ij rest =>
    simpa using scheduleInterjection_preserves
      { pw with interjectionInput := rest } ij

/-- `forwardToEventSource` never touches `eventInput`. -/
lemma forwardToEventSource_eventInput (pw : PartitionWorker) (offset : Int)
    (producer : Option Producer) (state : ExecutionState) :
    (pw.forwardToEventSource offset producer state).eventInput = pw.eventInput := by
  unfold PartitionWorker.forwardToEventSource
  cases producer <;> by_cases h : state = ExecutionState.Complete <;> simp [h]

/-- With a producer assigned, `forwardToEventSource` always writes
`offset + 1` into `highestOffset`, whatever the handler result. -/
lemma forwardToEventSource_some_highestOffset (pw : PartitionWorker)
    (offset : Int) (p : Producer) (state : ExecutionState) :
    (pw.forwardToEventSource offset (some p) state).highestOffset = offset + 1 := by
  unfold PartitionWorker.forwardToEventSource
  by_cases h : state = ExecutionState.Complete <;> simp [h]

/-- One lockstep batch iteration from a drained dispatch queue: `eventInput`
is drained again afterwards, and `highestOffset` does not decrease. -/
lemma lockstepStep_mono (pw : PartitionWorker) (r : Option Record)
    (h : pw.eventInput = []) :
    pw.highestOffset ≤ (pw.lockstepStep r).highestOffset ∧
    (pw.lockstepStep r).eventInput = [] := by
  unfold PartitionWorker.lockstepStep PartitionWorker.scheduleRecord
  have hpr :
      ((pw.processRecord r).eventInput = pw.eventInput ∧
        (pw.processRecord r).highestOffset = pw.highestOffset) ∨
      (∃ o : Int, pw.highestOffset ≤ o ∧
        (pw.processRecord r).eventInput = pw.eventInput ++ [o] ∧
        (pw.processRecord r).highestOffset = pw.highestOffset) := by
    unfold PartitionWorker.processRecord
    cases r with
    | none => exact Or.inl ⟨rfl, rfl⟩
    | some rec =>
      by_cases hge : rec.Offset ≥ pw.highestOffset
      · exact Or.inr ⟨rec.Offset, hge, by simp [hge]⟩
      · exact Or.inl (by simp [hge])
  have hil := interleaveInterjection_preserves (pw.processRecord r)
  unfold PartitionWorker.dispatchAllComplete
  rcases hpr with ⟨he, ho⟩ | ⟨o, hge, he, ho⟩
  · rw [hil.1, he, h]
    simp [hil.2, ho]
  · rw [hil.1, he, h]
    simp only [List.nil_append, List.foldl_cons, List.foldl_nil]
    constructor
    · rw [forwardToEventSource_some_highestOffset]
      omega
    · rw [forwardToEventSource_eventInput]

/-- Folding lockstep batch iterations from a drained dispatch queue keeps the
queue drained and never decreases `highestOffset`. -/
lemma lockstep_foldl_mono (records : List (Option Record))
    (pw : PartitionWorker) (h : pw.eventInput = []) :
    pw.highestOffset ≤
      (records.foldl PartitionWorker.lockstepStep pw).highestOffset ∧
    (records.foldl PartitionWorker.lockstepStep pw).eventInput = [] := by
  induction records generalizing pw with
  | nil => exact ⟨le_refl _, h⟩
  | cons r rest ih =>
    have hstep := lockstepStep_mono pw r h
    have hrest := ih (pw.lockstepStep r) hstep.2
    exact ⟨le_trans hstep.1 hrest.1, hrest.2⟩

/-- C1 (amended): under the lockstep interleaving — where the dispatch loop
processes each admitted context (producer assigned, handler `Complete`) before
`scheduleTxnAndExecution` inspects the next record — delivering the batch
[5,6,7,5,6,7] to a freshly constructed worker admits exactly the three
contexts for offsets 5, 6, 7 to the producer pool, leaves `highestOffset` at
8, and leaves a net `revocationWaiter` change of +3. -/
theorem c1_duplicate_suppression_lockstep :
    (newPartitionWorker.scheduleTxnAndExecutionLockstep dupBatch).poolAdmitted =
      [EventCtx.record 5, EventCtx.record 6, EventCtx.record 7] ∧
    (newPartitionWorker.scheduleTxnAndExecutionLockstep dupBatch).highestOffset = 8 ∧
    (newPartitionWorker.scheduleTxnAndExecutionLockstep dupBatch).revocationWaiter = 3 := by
  decide

/-- C1 counterexample: `scheduleTxnAndExecution` itself never writes
`highestOffset` (only the concurrent dispatch loop does), so in the legal
interleaving where the dispatch loop does not run during the call, the batch
[5,6,7,5,6,7] on a fresh worker creates and admits six event contexts — the
duplicates included — and the net `revocationWaiter` change is +6, not +3. -/
theorem c1_counterexample_schedule_first :
    (newPartitionWorker.scheduleTxnAndExecution dupBatch).poolAdmitted =
      [EventCtx.record 5, EventCtx.record 6, EventCtx.record 7,
        EventCtx.record 5, EventCtx.record 6, EventCtx.record 7] ∧
    (newPartitionWorker.scheduleTxnAndExecution dupBatch).revocationWaiter = 6 ∧
    ¬ (newPartitionWorker.scheduleTxnAndExecution dupBatch).poolAdmitted.length = 3 := by
  decide

/-- C2 (amended): (i) a record whose offset is below the worker's current
`highestOffset` is dropped by the scheduling loop without creating an event
context — the only effect is a `revocationWaiter` decrement; (ii) every write
of `highestOffset` in `forwardToEventSource` stores `ec.Offset() + 1`;
(iii) under the lockstep interleaving (each admitted context dispatched before
the next record is inspected) `highestOffset` is monotonically non-decreasing
across a batch.  Without the interleaving restriction monotonicity fails, as
the counterexample shows. -/
theorem c2_highest_offset_amended (pw : PartitionWorker) :
    (∀ r : Record, r.Offset < pw.highestOffset →
      pw.processRecord (some r) =
        { pw with revocationWaiter := pw.revocationWaiter - 1 }) ∧
    (∀ offset : Int, ∀ p : Producer, ∀ st : ExecutionState,
      (pw.forwardToEventSource offset (some p) st).highestOffset = offset + 1) ∧
    (pw.eventInput = [] → ∀ records : List (Option Record),
      pw.highestOffset ≤
        (pw.scheduleTxnAndExecutionLockstep records).highestOffset) := by
  refine ⟨?_, ?_, ?_⟩
  · intro r hr
    unfold PartitionWorker.processRecord
    simp [not_le.mpr hr]
  · intro offset p st
    unfold PartitionWorker.forwardToEventSource
    by_cases h : st = ExecutionState.Complete <;> simp [h]
  · intro h records
    unfold PartitionWorker.scheduleTxnAndExecutionLockstep
    by_cases hrev : pw.isRevoked
    · simp [hrev]
    · simp only [hrev, Bool.false_eq_true, if_neg, ite_false]
      exact (lockstep_foldl_mono records
        { pw with revocationWaiter := pw.revocationWaiter + records.length } h).1

/-- C2 witness: on a fresh worker with `highestOffset` forced to 10, the stale
record 5 is dropped with only a waiter decrement; a producer-assigned forward
of offset 4 writes 5; and the lockstep batch [5,6,7,5,6,7] never decreases
`highestOffset` from its initial value. -/
theorem c2_witness :
    ({ newPartitionWorker with highestOffset := 10 }.processRecord
        (some { Offset := 5 }) =
      { newPartitionWorker with highestOffset := 10, revocationWaiter := 0 - 1 }) ∧
    (newPartitionWorker.forwardToEventSource 4 (some { id := 0 })
        ExecutionState.Complete).highestOffset = 5 ∧
    newPartitionWorker.highestOffset ≤
      (newPartitionWorker.scheduleTxnAndExecutionLockstep dupBatch).highestOffset := by
  refine ⟨?_, ?_, ?_⟩
  · exact (c2_highest_offset_amended
      { newPartitionWorker with highestOffset := 10 }).1 { Offset := 5 } (by decide)
  · exact (c2_highest_offset_amended newPartitionWorker).2.1 4 { id := 0 }
      ExecutionState.Complete
  · exact (c2_highest_offset_amended newPartitionWorker).2.2 rfl dupBatch

/-- C2 counterexample: with the batch [5,6,7,5,6,7] scheduled before the
dispatch loop runs (all six records pass the offset check against the stale
`highestOffset = -1`), dispatching the first three contexts drives
`highestOffset` to 8, and dispatching the fourth context — the duplicate of
offset 5 — writes 6, strictly below the 8 it replaces: a write of
`highestOffset` that decreases it. -/
theorem c2_counterexample_nonmonotonic_write :
    let pwS := newPartitionWorker.scheduleTxnAndExecution dupBatch
    let pw3 := ((pwS.dispatchOne (some { id := 0 })
        ExecutionState.Complete).dispatchOne (some { id := 0 })
        ExecutionState.Complete).dispatchOne (some { id := 0 })
        ExecutionState.Complete
    pw3.highestOffset = 8 ∧
    (pw3.dispatchOne (some { id := 0 }) ExecutionState.Complete).highestOffset = 6 ∧
    (pw3.dispatchOne (some { id := 0 }) ExecutionState.Complete).highestOffset <
      pw3.highestOffset := by
  decide

/-- C3: once the worker's run status has been halted (`isRevoked` is true),
`add` leaves the worker unchanged (nothing is sent on `partitionInput`),
`scheduleTxnAndExecution` returns immediately (no `revocationWaiter`
increment, no `maxPending` token, no context), and `scheduleInterjection`
creates no context and acquires no token but still invokes the interjection's
one-shot callback when present. -/
theorem c3_revoked_is_noop (pw : PartitionWorker) (h : pw.isRevoked = true) :
    (∀ records : List (Option Record), pw.add records = pw) ∧
    (∀ records : List (Option Record), pw.scheduleTxnAndExecution records = pw) ∧
    (∀ inter : Interjection,
      (pw.scheduleInterjection inter).poolAdmitted = pw.poolAdmitted ∧
      (pw.scheduleInterjection inter).tokensHeld = pw.tokensHeld ∧
      (pw.scheduleInterjection inter).revocationWaiter = pw.revocationWaiter ∧
      (pw.scheduleInterjection inter).interjectionEventInput =
        pw.interjectionEventInput ∧
      (pw.scheduleInterjection inter).eventInput = pw.eventInput ∧
      (∀ cb : Nat, inter.callback = some cb →
        (pw.scheduleInterjection inter).callbacksInvoked =
          pw.callbacksInvoked ++ [cb]) ∧
      (inter.callback = none → pw.scheduleInterjection inter = pw)) := by
  refine ⟨?_, ?_, ?_⟩
  · intro records
    unfold PartitionWorker.add
    simp [h]
  · intro records
    unfold PartitionWorker.scheduleTxnAndExecution
    simp [h]
  · intro inter
    unfold PartitionWorker.scheduleInterjection
    cases hc : inter.callback <;>
      simp [h, hc]

/-- C3 witness: on the freshly revoked worker, `add` and
`scheduleTxnAndExecution` of the batch [5,6,7,5,6,7] are identities, a
callback-free interjection is a no-op, and an interjection carrying one-shot
callback 7 only logs that invocation. -/
theorem c3_witness :
    (newPartitionWorker.revoke.add dupBatch = newPartitionWorker.revoke) ∧
    (newPartitionWorker.revoke.scheduleTxnAndExecution dupBatch =
      newPartitionWorker.revoke) ∧
    (newPartitionWorker.revoke.scheduleInterjection { callback := none } =
      newPartitionWorker.revoke) ∧
    (newPartitionWorker.revoke.scheduleInterjection
        { callback := some 7 }).callbacksInvoked = [7] ∧
    (newPartitionWorker.revoke.scheduleInterjection
        { callback := some 7 }).poolAdmitted = [] := by
  have h := c3_revoked_is_noop newPartitionWorker.revoke rfl
  refine ⟨h.1 dupBatch, h.2.1 dupBatch,
    (h.2.2 { callback := none }).2.2.2.2.2.2 rfl, ?_, ?_⟩
  · have hc := (h.2.2 { callback := some 7 }).2.2.2.2.2.1 7 rfl
    simpa using hc
  · have hp := (h.2.2 { callback := some 7 }).1
    simpa using hp

/-- C4: for a record context taken from `eventInput`, `handleEvent` runs
`forwardToEventSource`: with a nil producer assignment exactly one
`maxPending` token is released and `highestOffset` and the completion log are
unchanged; with a producer assigned, `highestOffset` becomes
`ec.Offset() + 1`, and the context is completed with its token released
exactly when the user handler returns `Complete` — for any other result the
token stays held and the context is not completed. -/
theorem c4_handle_event_producer_and_completion (pw : PartitionWorker)
    (offset : Int) (p : Producer) (st : ExecutionState) :
    ((pw.forwardToEventSource offset none st).tokensHeld = pw.tokensHeld - 1 ∧
      (pw.forwardToEventSource offset none st).highestOffset = pw.highestOffset ∧
      (pw.forwardToEventSource offset none st).completedOffsets =
        pw.completedOffsets) ∧
    (pw.forwardToEventSource offset (some p) st).highestOffset = offset + 1 ∧
    (st = ExecutionState.Complete →
      (pw.forwardToEventSource offset (some p) st).completedOffsets =
        pw.completedOffsets ++ [offset] ∧
      (pw.forwardToEventSource offset (some p) st).tokensHeld =
        pw.tokensHeld - 1) ∧
    (st ≠ ExecutionState.Complete →
      (pw.forwardToEventSource offset (some p) st).completedOffsets =
        pw.completedOffsets ∧
      (pw.forwardToEventSource offset (some p) st).tokensHeld = pw.tokensHeld) ∧
    pw.handleEvent offset none st = (pw.forwardToEventSource offset none st, true) ∧
    pw.handleEvent offset (some p) st =
      (pw.forwardToEventSource offset (some p) st, true) := by
  unfold PartitionWorker.handleEvent PartitionWorker.forwardToEventSource
  by_cases h : st = ExecutionState.Complete <;> simp [h]

/-- C4 witness: on the fresh worker at offset 5: a nil producer releases the
token and leaves `highestOffset` at -1; with a producer assigned and a
`Complete` handler the offset is logged completed and the token released;
with `Incomplete` the token balance and completion log are untouched while
`highestOffset` still becomes 6. -/
theorem c4_witness :
    (newPartitionWorker.forwardToEventSource 5 none
        ExecutionState.Complete).tokensHeld = 0 - 1 ∧
    (newPartitionWorker.forwardToEventSource 5 none
        ExecutionState.Complete).highestOffset = -1 ∧
    (newPartitionWorker.forwardToEventSource 5 (some { id := 0 })
        ExecutionState.Complete).completedOffsets = [5] ∧
    (newPartitionWorker.forwardToEventSource 5 (some { id := 0 })
        ExecutionState.Incomplete).tokensHeld = 0 ∧
    (newPartitionWorker.forwardToEventSource 5 (some { id := 0 })
        ExecutionState.Incomplete).highestOffset = 6 := by
  have hc := c4_handle_event_producer_and_completion newPartitionWorker 5
    { id := 0 } ExecutionState.Complete
  have hi := c4_handle_event_producer_and_completion newPartitionWorker 5
    { id := 0 } ExecutionState.Incomplete
  refine ⟨hc.1.1, ?_, ?_, ?_, ?_⟩
  · have h2 := hc.1.2.1
    simpa using h2
  · have h3 := (hc.2.2.1 rfl).1
    simpa using h3
  · have h4 := (hi.2.2.2.1 (by decide)).2
    simpa using h4
  · exact hi.2.1

end GKES
